import Mathlib

/-!
Verification development for the J2497 keyhole-mitigation waveform generator
(`j2497_common.py` and `j2497_keyhole.py`).

Modelling conventions:
* Python byte strings are `List ℕ` (each entry a byte value 0..255).
* Bit streams (the `bitstring` arrays) are `List Bool`, most significant bit
  first for a freshly converted byte, exactly as `bitstring.BitArray(bytes=...)`.
* Python / numpy floating point arithmetic is modelled as exact rational
  arithmetic over `ℚ`; `int(x)` is truncation toward zero (`pyInt`) and the
  float `%` is the floored remainder (`pymod`).
* Sample arrays are `List ℚ`.  The transcendental sample values produced by
  `scipy.signal.chirp` are not computed by the Python code in any way that the
  verified properties depend on, so the two scipy-generated waveforms (the
  100 µs chirp symbol and the constant-carrier jam) are abstract fields of a
  `Wavegen` structure, constrained to have exactly the sample counts that
  `np.linspace`/`chirp` produce.  Everything else is translated directly.
-/

/-- Truncation toward zero of a rational, the behaviour of Python `int(x)`. -/
def pyInt (q : ℚ) : ℤ := if q < 0 then -⌊-q⌋ else ⌊q⌋

/-- Truncation toward zero, clamped to `ℕ` (used where the Python value feeds
a sample count such as `np.zeros(n)`). -/
def pyIntToNat (q : ℚ) : ℕ := (pyInt q).toNat

/-- Floored remainder, the behaviour of Python `%` on floats (for a positive
divisor).  For divisor 0 Python raises; here the value is immaterial. -/
def pymod (a b : ℚ) : ℚ := a - b * ⌊a / b⌋

/-- Big-endian bit list of the low 8 bits of a byte, as produced by
`bitstring.BitArray(bytes=[b])`. -/
def byteBitsMSB (b : ℕ) : List Bool :=
  [b.testBit 7, b.testBit 6, b.testBit 5, b.testBit 4,
   b.testBit 3, b.testBit 2, b.testBit 1, b.testBit 0]

/-- Source constant `INITIAL_PREAMBLE_BITS = '00'`. -/
def INITIAL_PREAMBLE_BITS : List Bool := [false, false]

/-- Source constant `SYNC_BITS = '11111'`. -/
def SYNC_BITS : List Bool := [true, true, true, true, true]

/-- Source constant `START_BITS = '0'`. -/
def START_BITS : List Bool := [false]

/-- Source constant `STOP_BITS = '1'`. -/
def STOP_BITS : List Bool := [true]

/-- Source constant `ENDSYNC_BITS = '1111111'`. -/
def ENDSYNC_BITS : List Bool := [true, true, true, true, true, true, true]

/-- Embedding of `get_checksum_bits` up to the final 8-bit formatting: the
returned checksum value in 0..255.  The Python code sums the 8-bit chunks of
the payload bit string (i.e. the payload bytes), converts the sum to a binary
digit string, re-reads that string as a decimal number (`binint`), negates it
via bitwise complement plus one (`~binint + 1 = -binint`), and re-parses the
decimal digit string of that negation as binary, which recovers the negated
sum; it is then reduced into 0..255 by adding `1 << 8` and taking `%`. -/
def get_checksum (payload : List ℕ) : ℕ :=
  let checksum : ℕ := payload.sum
  let binint : ℕ := Nat.ofDigits 10 (Nat.digits 2 checksum)
  let intflipped : ℤ := -(Nat.ofDigits 2 (Nat.digits 10 binint) : ℤ)
  ((intflipped + (1 <<< 8)) % (1 <<< 8)).toNat

/-- Bits of the checksum byte, most significant first (`'{0:08b}'.format`). -/
def get_checksum_bits (payload : List ℕ) : List Bool :=
  byteBitsMSB (get_checksum payload)

/-- Byte-framing loop body of `get_payload_bits`.  The second argument is the
source's `char_count` variable; the source initialises it to 0 and never
increments it, so it is threaded through unchanged here, exactly as in the
code.  Python list indexing out of range raises; it is totalised with
`List.getD`/`List.getLastD` (never reached for a non-empty
`extra_stop_bits`, since `char_count` stays 0). -/
def payloadByteFrames (extra_stop_bits : List ℕ) : List ℕ → ℕ → List Bool
  | [], _ => []
  | b :: rest, char_count =>
    let extra_stop_bit : ℕ :=
      if char_count > extra_stop_bits.length then extra_stop_bits.getLastD 0
      else extra_stop_bits.getD char_count 0
    START_BITS ++ (byteBitsMSB b).reverse ++ STOP_BITS
      ++ List.replicate extra_stop_bit true
      ++ payloadByteFrames extra_stop_bits rest char_count

/-- Embedding of `get_payload_bits`.  The Python defaults
(`extra_stop_bits=None` meaning `[0]`, `truncate_at_checksum=False`) are
supplied explicitly at call sites. -/
def get_payload_bits (payload : List ℕ) (checksum : Option ℕ)
    (extra_stop_bits : List ℕ) (truncate_at_checksum : Bool) : List Bool :=
  let body := SYNC_BITS ++ payloadByteFrames extra_stop_bits payload 0
  if truncate_at_checksum then body
  else
    let checksum_bits : List Bool :=
      (match checksum with
       | none => get_checksum_bits payload
       | some c => byteBitsMSB c).reverse
    body ++ START_BITS ++ checksum_bits ++ STOP_BITS ++ ENDSYNC_BITS

/-- Abstract provider for the two scipy-generated waveforms.  The raw chirp
symbol is the `np.hstack` of the three `scipy.signal.chirp` segments in
`generate_single_chirp` (their sample counts are fixed by the `np.linspace`
calls: `int(63E-6*sr)`, `int(4E-6*sr)` and `int(33E-6*sr)` points); the jam is
the `scipy.signal.chirp` constant carrier of `_get_jam`, whose `np.linspace`
produces exactly `duration_samples` points. -/
structure Wavegen where
  chirpRaw : ℚ → List ℚ
  jamRaw : ℚ → ℕ → List ℚ
  chirpRaw_length : ∀ sr : ℚ, (chirpRaw sr).length =
    pyIntToNat (63 / 1000000 * sr) + pyIntToNat (4 / 1000000 * sr)
      + pyIntToNat (33 / 1000000 * sr)
  jamRaw_length : ∀ (sr : ℚ) (d : ℕ), (jamRaw sr d).length = d

/-- Source expression `int(100e-6 * samp_rate)`, the target sample count of
one 100 µs chirp symbol. -/
def chirpTargetLen (samp_rate : ℚ) : ℕ := pyIntToNat (100 / 1000000 * samp_rate)

/-- Embedding of `generate_single_chirp`: the three chirp segments, padded
with `np.zeros(np.max([0, target_len - len(wave)]))` up to the target
length. -/
def generate_single_chirp (W : Wavegen) (samp_rate : ℚ) : List ℚ :=
  let wave := W.chirpRaw samp_rate
  wave ++ List.replicate (chirpTargetLen samp_rate - wave.length) 0

/-- Embedding of `get_payload_chirps`: each true bit appends the chirp
symbol, each false bit appends the phase-inverted chirp (`local_chirp * -1`). -/
def get_payload_chirps (j2497_payload_bits : List Bool) (samp_rate : ℚ)
    (local_chirp : List ℚ) : List ℚ :=
  j2497_payload_bits.flatMap fun n =>
    if n then local_chirp else local_chirp.map fun x => x * (-1)

/-- Embedding of `_get_jam` (at the default `DEFAULT_JAM_FREQ` carrier): a
constant-carrier sinusoid of exactly `duration_samples` samples. -/
def get_jam (W : Wavegen) (sample_rate : ℚ) (duration_samples : ℕ) : List ℚ :=
  W.jamRaw sample_rate duration_samples

/-- Source constant `US_PER_SEC = 1e6`. -/
def US_PER_SEC : ℚ := 1000000

/-- Source constant `UART_BIT_TIME_US = 104.17` (9600 bps). -/
def UART_BIT_TIME_US : ℚ := 10417 / 100

/-- Source constant `BODY_BIT_TIME_US = 100`. -/
def BODY_BIT_TIME_US : ℚ := 100

/-- Source constant `SYNC_SYMBOL_TIME_US = 5 * BODY_BIT_TIME_US`. -/
def SYNC_SYMBOL_TIME_US : ℚ := 5 * BODY_BIT_TIME_US

/-- Source constant `FROM_J2497_OVER_TO_UART_OVER_US = 48.3`. -/
def FROM_J2497_OVER_TO_UART_OVER_US : ℚ := 483 / 10

/-- Source constant `TIME_AFTER_PAYLOAD_US = (1 + 8 + 1 + 7) * 100`. -/
def TIME_AFTER_PAYLOAD_US : ℚ := (1 + 8 + 1 + 7) * BODY_BIT_TIME_US

/-- Source constant `MIN_PERIOD_US = 32000`. -/
def MIN_PERIOD_US : ℚ := 32000

/-- Source constant `DEFAULT_PERIOD_US = MIN_PERIOD_US`. -/
def DEFAULT_PERIOD_US : ℚ := MIN_PERIOD_US

/-- One record of `DEFAULT_SUPPLIER_PARAMETERS`. -/
structure SupplierParams where
  label : String
  expected_delays : List ℚ
  extra_stop_bits : List ℕ
  expected_phases : List ℚ
deriving DecidableEq

/-- WABCO record of `DEFAULT_SUPPLIER_PARAMETERS` (delays 45.0 and 41.7). -/
def wabcoParams : SupplierParams :=
  { label := "wabco tcs ii 2s1m basic msh 400 500 101 0"
    expected_delays := [45, 417 / 10]
    extra_stop_bits := [2, 2]
    expected_phases := [-1, 1] }

/-- Bendix record of `DEFAULT_SUPPLIER_PARAMETERS` (delays 47.2, 41.7, 40.6). -/
def bendixParams : SupplierParams :=
  { label := "bendix tabs6 5014016 ES1301 K003236"
    expected_delays := [236 / 5, 417 / 10, 203 / 5]
    extra_stop_bits := [1, 0]
    expected_phases := [-1, 1] }

/-- Source constant `DEFAULT_SUPPLIER_PARAMETERS` (the Haldex record is
commented out in the source). -/
def DEFAULT_SUPPLIER_PARAMETERS : List SupplierParams := [wabcoParams, bendixParams]

/-- Source constant `DEFAULT_ALLOWED_MESSAGES = [b'\x0a\x00']` (LAMP ON). -/
def DEFAULT_ALLOWED_MESSAGES : List (List ℕ) := [[0x0a, 0x00]]

/-- Byte string `b'\x89' + binascii.unhexlify('fe0757aaaaaaaaaaaaaaaaaaaaa71c')`
from `_door_signals` (MID plus fifteen body bytes, ten of them 0xAA). -/
def door_message : List ℕ :=
  [0x89, 0xfe, 0x07, 0x57, 0xaa, 0xaa, 0xaa, 0xaa, 0xaa, 0xaa, 0xaa, 0xaa,
   0xaa, 0xaa, 0xa7, 0x1c]

/-- Bit stream of the door signal: `get_payload_bits(mid + body, checksum=cc)`
with the defaults `extra_stop_bits=[0]`, `truncate_at_checksum=False`. -/
def door_bits : List Bool := get_payload_bits door_message (some 0xcc) [0] false

/-- Sample waveform yielded by `_door_signals` for the single MID `0x89`:
`get_payload_chirps(door_bits, sample_rate)` with the default chirp symbol
(there is no preamble stage). -/
def doorWave (W : Wavegen) (sample_rate : ℚ) : List ℚ :=
  get_payload_chirps door_bits sample_rate (generate_single_chirp W sample_rate)

/-- Embedding of `_door_signals`: one signal per MID in `mids = [b'\x89']`. -/
def door_signals (W : Wavegen) (sample_rate : ℚ) : List (List ℚ) :=
  [doorWave W sample_rate]

/-- Expression `current_expected_delay_bit_time * UART_BIT_TIME_US +
FROM_J2497_OVER_TO_UART_OVER_US - UART_BIT_TIME_US - SYNC_SYMBOL_TIME_US`
from `_keyhole_signals`. -/
def keyholeStartUs (delay_bit_time : ℚ) : ℚ :=
  delay_bit_time * UART_BIT_TIME_US + FROM_J2497_OVER_TO_UART_OVER_US
    - UART_BIT_TIME_US - SYNC_SYMBOL_TIME_US

/-- Expression `int(keyhole_signal_start_us * sample_rate / US_PER_SEC)`. -/
def keyholeStartSamples (delay_bit_time sample_rate : ℚ) : ℕ :=
  pyIntToNat (keyholeStartUs delay_bit_time * sample_rate / US_PER_SEC)

/-- Expression `np.zeros(int(TIME_AFTER_PAYLOAD_US * sample_rate / US_PER_SEC))`. -/
def blank_after_payload (sample_rate : ℚ) : List ℚ :=
  List.replicate (pyIntToNat (TIME_AFTER_PAYLOAD_US * sample_rate / US_PER_SEC)) 0

/-- Early jam of one keyhole: `jam_amplitude * _get_jam(sample_rate,
keyhole_signal_start_samples)`. -/
def mkEarlyJam (W : Wavegen) (sample_rate jam_amplitude delay_bit_time : ℚ) : List ℚ :=
  (get_jam W sample_rate (keyholeStartSamples delay_bit_time sample_rate)).map
    fun x => jam_amplitude * x

/-- Scaled keyhole chirps plus the blanked CRC window:
`np.append(keyhole_amplitude * current_phase * get_payload_chirps(keyhole_bits,
sample_rate), blank_after_payload)`. -/
def mkKeyholeTail (W : Wavegen) (sample_rate keyhole_amplitude phase : ℚ)
    (allowed_message : List ℕ) (extra_stop_bits : List ℕ) : List ℚ :=
  (get_payload_chirps (get_payload_bits allowed_message none extra_stop_bits true)
      sample_rate (generate_single_chirp W sample_rate)).map
    (fun x => keyhole_amplitude * phase * x)
  ++ blank_after_payload sample_rate

/-- Loop body of `_keyhole_signals` for one (message, supplier, delay, phase)
tuple: early jam prepended to the scaled keyhole. -/
def mkKeyholeSignal (W : Wavegen) (sample_rate : ℚ) (calibration_mode : Bool)
    (t : List ℕ × SupplierParams × ℚ × ℚ) : List ℚ :=
  let keyhole_amplitude : ℚ := if calibration_mode then 0 else 1
  let jam_amplitude : ℚ := if calibration_mode then 0 else 1
  mkEarlyJam W sample_rate jam_amplitude t.2.2.1
    ++ mkKeyholeTail W sample_rate keyhole_amplitude t.2.2.2 t.1
        t.2.1.extra_stop_bits

/-- Embedding of `_keyhole_signals`: the nested loops over allowed messages,
suppliers, each supplier's expected delays and expected phases, in source
order, yielding one signal per iteration of the innermost loop. -/
def keyhole_signals (W : Wavegen) (sample_rate : ℚ)
    (allowed_messages : List (List ℕ))
    (keyhole_supplier_parameters : List SupplierParams)
    (calibration_mode : Bool) : List (List ℚ) :=
  let keyhole_amplitude : ℚ := if calibration_mode then 0 else 1
  let jam_amplitude : ℚ := if calibration_mode then 0 else 1
  allowed_messages.flatMap fun allowed_message =>
    keyhole_supplier_parameters.flatMap fun params =>
      let keyhole_bits := get_payload_bits allowed_message none
        params.extra_stop_bits true
      params.expected_delays.flatMap fun current_expected_delay_bit_time =>
        let keyhole_signal_start_samples :=
          keyholeStartSamples current_expected_delay_bit_time sample_rate
        let early_jam := (get_jam W sample_rate keyhole_signal_start_samples).map
          fun x => jam_amplitude * x
        params.expected_phases.map fun current_phase =>
          early_jam
            ++ ((get_payload_chirps keyhole_bits sample_rate
                  (generate_single_chirp W sample_rate)).map
                (fun x => keyhole_amplitude * current_phase * x)
              ++ blank_after_payload sample_rate)

/-- Enumeration skeleton of the `_keyhole_signals` loops: the
(message, supplier, delay, phase) tuples in the order the source visits
them. -/
def keyholeTuples (allowed_messages : List (List ℕ))
    (keyhole_supplier_parameters : List SupplierParams) :
    List (List ℕ × SupplierParams × ℚ × ℚ) :=
  allowed_messages.flatMap fun m =>
    keyhole_supplier_parameters.flatMap fun p =>
      p.expected_delays.flatMap fun d =>
        p.expected_phases.map fun ph => (m, p, d, ph)

/-- Error outcomes of `generate` (assertion failures and the explicit
`ValueError`), in the order the source can raise them. -/
inductive GenError where
  | sampleRateTooLow
  | periodTooShort
  | alignmentLow
  | alignmentHigh
  | frameTooLong
  | tooFewKeyholes
deriving DecidableEq

/-- Configuration errors in the sense of the specification's error taxonomy:
sample-rate floor, period floor and the two LAMP-alignment assertions. -/
def GenError.isConfigError : GenError → Bool
  | .sampleRateTooLow => true
  | .periodTooShort => true
  | .alignmentLow => true
  | .alignmentHigh => true
  | _ => false

/-- Main loop of `generate`: for each keyhole, take the next door from the
cycle, append the keyhole, check it fits in the period, pad with the late
jam and yield.  Frames yielded before a failing assertion are kept, as a
Python generator would have already yielded them. -/
def composeFrames (W : Wavegen) (sample_rate jam_amplitude : ℚ)
    (period_samples : ℕ) (doors : List (List ℚ)) :
    ℕ → List (List ℚ) → List (List ℚ) × Option GenError
  | _, [] => ([], none)
  | i, keyhole :: rest =>
    let door := doors.getD (i % doors.length) []
    let door_n_keyhole := door ++ keyhole
    if door_n_keyhole.length < period_samples then
      let late_jam := (get_jam W sample_rate
        (period_samples - door_n_keyhole.length)).map fun x => jam_amplitude * x
      let r := composeFrames W sample_rate jam_amplitude period_samples doors
        (i + 1) rest
      ((door_n_keyhole ++ late_jam) :: r.1, r.2)
    else ([], some .frameTooLong)

/-- Embedding of `generate`.  The result is the list of frames yielded
together with the error, if any, that terminated the run; `none` means the
generator ran to completion.  Option arguments model the Python `None`
defaults. -/
def generate (W : Wavegen) (sample_rate : ℚ)
    (allowed_messages : Option (List (List ℕ)))
    (keyhole_supplier_parameters : Option (List SupplierParams))
    (period_us : Option ℚ) (calibration_mode : Bool) :
    List (List ℚ) × Option GenError :=
  if sample_rate < 800000 then ([], some .sampleRateTooLow) else
  let ksp := keyhole_supplier_parameters.getD DEFAULT_SUPPLIER_PARAMETERS
  let allowed := allowed_messages.getD DEFAULT_ALLOWED_MESSAGES
  let period := period_us.getD DEFAULT_PERIOD_US
  let jam_amplitude : ℚ := if calibration_mode then 0 else 1
  if ¬ MIN_PERIOD_US ≤ period then ([], some .periodTooShort) else
  let period_samples : ℕ := pyIntToNat (period * sample_rate / US_PER_SEC)
  let remainder : ℚ := pymod (1 / 2 * sample_rate) (period_samples : ℚ)
  let alignment_limit : ℚ :=
    (SYNC_BITS.length : ℚ) * BODY_BIT_TIME_US * sample_rate / US_PER_SEC
  if ¬ alignment_limit < remainder then ([], some .alignmentLow) else
  if ¬ alignment_limit < (period_samples : ℚ) - remainder then
    ([], some .alignmentHigh) else
  let doors := door_signals W sample_rate
  let keyholes := keyhole_signals W sample_rate allowed ksp calibration_mode
  let fe := composeFrames W sample_rate jam_amplitude period_samples doors 0
    keyholes
  match fe.2 with
  | some e => (fe.1, some e)
  | none =>
    if keyholes.length < doors.length then (fe.1, some .tooFewKeyholes) else
    let all_jam_door := doors.getD (keyholes.length % doors.length) []
    if ¬ all_jam_door.length < period_samples then
      (fe.1, some .frameTooLong)
    else
      (fe.1 ++ [all_jam_door ++ (get_jam W sample_rate
        (period_samples - all_jam_door.length)).map fun x => jam_amplitude * x],
       none)

/-- Concrete waveform provider whose chirp and jam samples are all zero,
used to instantiate theorems at closed inputs. -/
def zeroWavegen : Wavegen where
  chirpRaw sr := List.replicate
    (pyIntToNat (63 / 1000000 * sr) + pyIntToNat (4 / 1000000 * sr)
      + pyIntToNat (33 / 1000000 * sr)) 0
  jamRaw _ d := List.replicate d 0
  chirpRaw_length sr := by simp
  jamRaw_length sr d := by simp

/-- Sample count of one keyhole signal, as a function of the tuple only
(the abstract waveforms contribute fixed lengths). -/
def khLen (sr : ℚ) (t : List ℕ × SupplierParams × ℚ × ℚ) : ℕ :=
  keyholeStartSamples t.2.2.1 sr
    + (get_payload_bits t.1 none t.2.1.extra_stop_bits true).length
        * chirpTargetLen sr
    + pyIntToNat (TIME_AFTER_PAYLOAD_US * sr / US_PER_SEC)

/-- Negation of the two LAMP-alignment assertions of `generate`: the
remainder of the 0.5 s LAMP cycle against the frame period is within one
sync-symbol width of 0 or of the period. -/
def alignFails (sr pe : ℚ) : Prop :=
  ¬ (SYNC_BITS.length : ℚ) * BODY_BIT_TIME_US * sr / US_PER_SEC
      < pymod (1 / 2 * sr) ((pyIntToNat (pe * sr / US_PER_SEC) : ℚ))
    ∨ ¬ (SYNC_BITS.length : ℚ) * BODY_BIT_TIME_US * sr / US_PER_SEC
      < ((pyIntToNat (pe * sr / US_PER_SEC) : ℚ))
          - pymod (1 / 2 * sr) ((pyIntToNat (pe * sr / US_PER_SEC) : ℚ))

/-- Modelled from the spec: the `round(period_us × sample_rate / 1e6)` in the
claimed frame-length formula, as round-half-up to the nearest integer.  The
code computes `int(...)` (truncation) instead. -/
def specRound (q : ℚ) : ℤ := ⌊q + 1 / 2⌋

theorem pyInt_of_nonneg {q : ℚ} (h : 0 ≤ q) : pyInt q = ⌊q⌋ := by
  unfold pyInt
  rw [if_neg (not_lt.mpr h)]

theorem get_checksum_eq (payload : List ℕ) :
    get_checksum payload = ((256 - (payload.sum : ℤ)) % 256).toNat := by
  have hdig : Nat.digits 10 (Nat.ofDigits 10 (Nat.digits 2 payload.sum))
      = Nat.digits 2 payload.sum := by
    rcases Nat.eq_zero_or_pos payload.sum with h0 | hpos
    · simp [h0]
    · refine Nat.digits_ofDigits 10 (by norm_num) _ ?_ ?_
      · intro l hl
        exact lt_trans (Nat.digits_lt_base (by norm_num) hl) (by norm_num)
      · intro h
        exact Nat.getLast_digit_ne_zero 2 hpos.ne'
  simp only [get_checksum, hdig]
  rw [show (2 : ℤ) = ((2 : ℕ) : ℤ) from by norm_num, ← Nat.coe_int_ofDigits,
    Nat.ofDigits_digits]
  have h256 : ((1 <<< 8 : ℕ) : ℤ) = 256 := by decide
  rw [h256, show -(payload.sum : ℤ) + 256 = 256 - (payload.sum : ℤ) from by ring]

theorem length_get_payload_chirps (bits : List Bool) (sr : ℚ) (c : List ℚ) :
    (get_payload_chirps bits sr c).length = bits.length * c.length := by
  unfold get_payload_chirps
  induction bits with
  | nil => simp
  | cons b bs ih =>
    rw [List.flatMap_cons, List.length_append, ih]
    cases b <;> simp [List.length_map] <;> ring

theorem length_generate_single_chirp (W : Wavegen) {sr : ℚ} (h : 0 ≤ sr) :
    (generate_single_chirp W sr).length = chirpTargetLen sr := by
  have h63 : (0 : ℚ) ≤ 63 / 1000000 * sr := by positivity
  have h4 : (0 : ℚ) ≤ 4 / 1000000 * sr := by positivity
  have h33 : (0 : ℚ) ≤ 33 / 1000000 * sr := by positivity
  have h100 : (0 : ℚ) ≤ 100 / 1000000 * sr := by positivity
  have hfl : ⌊63 / 1000000 * sr⌋ + ⌊4 / 1000000 * sr⌋ + ⌊33 / 1000000 * sr⌋
      ≤ ⌊100 / 1000000 * sr⌋ := by
    apply Int.le_floor.mpr
    push_cast
    have g63 := Int.floor_le (63 / 1000000 * sr)
    have g4 := Int.floor_le (4 / 1000000 * sr)
    have g33 := Int.floor_le (33 / 1000000 * sr)
    have : (63 : ℚ) / 1000000 * sr + 4 / 1000000 * sr + 33 / 1000000 * sr
        = 100 / 1000000 * sr := by ring
    linarith
  have hseg : (W.chirpRaw sr).length ≤ chirpTargetLen sr := by
    rw [W.chirpRaw_length]
    unfold chirpTargetLen pyIntToNat
    rw [pyInt_of_nonneg h63, pyInt_of_nonneg h4, pyInt_of_nonneg h33,
      pyInt_of_nonneg h100]
    have n63 := Int.floor_nonneg.mpr h63
    have n4 := Int.floor_nonneg.mpr h4
    have n33 := Int.floor_nonneg.mpr h33
    omega
  unfold generate_single_chirp
  simp only [List.length_append, List.length_replicate]
  omega

theorem length_blank_after_payload (sr : ℚ) :
    (blank_after_payload sr).length
      = pyIntToNat (TIME_AFTER_PAYLOAD_US * sr / US_PER_SEC) := by
  simp [blank_after_payload]

set_option maxRecDepth 8192 in
theorem door_bits_length : door_bits.length = 182 := by decide

theorem length_door_chirps (W : Wavegen) {sr : ℚ} (h : 0 ≤ sr) :
    (get_payload_chirps door_bits sr (generate_single_chirp W sr)).length
      = 182 * chirpTargetLen sr := by
  rw [length_get_payload_chirps, door_bits_length,
    length_generate_single_chirp W h]

theorem keyhole_signals_eq (W : Wavegen) (sr : ℚ) (a : List (List ℕ))
    (s : List SupplierParams) (c : Bool) :
    keyhole_signals W sr a s c = (keyholeTuples a s).map (mkKeyholeSignal W sr c) := by
  unfold keyhole_signals keyholeTuples
  simp only [List.map_flatMap, List.map_map]
  rfl

theorem length_mkKeyholeSignal (W : Wavegen) {sr : ℚ} (h : 0 ≤ sr) (c : Bool)
    (t : List ℕ × SupplierParams × ℚ × ℚ) :
    (mkKeyholeSignal W sr c t).length = khLen sr t := by
  unfold mkKeyholeSignal mkEarlyJam mkKeyholeTail khLen get_jam
  simp [W.jamRaw_length, length_get_payload_chirps,
    length_generate_single_chirp W h, length_blank_after_payload]
  omega

theorem length_mkKeyholeSignal_cal_free (W : Wavegen) (sr : ℚ)
    (t : List ℕ × SupplierParams × ℚ × ℚ) :
    (mkKeyholeSignal W sr true t).length = (mkKeyholeSignal W sr false t).length := by
  unfold mkKeyholeSignal mkEarlyJam mkKeyholeTail
  simp

theorem map_zero_mul (l : List ℚ) :
    (l.map fun x => (0 : ℚ) * x) = List.replicate l.length 0 := by
  induction l with
  | nil => rfl
  | cons x xs ih => simp [ih, List.replicate_succ]

theorem composeFrames_mem_length (W : Wavegen) (sr ja : ℚ) (ps : ℕ)
    (doors : List (List ℚ)) :
    ∀ (ks : List (List ℚ)) (i : ℕ) (f : List ℚ),
      f ∈ (composeFrames W sr ja ps doors i ks).1 → f.length = ps := by
  intro ks
  induction ks with
  | nil =>
    intro i f hf
    simp [composeFrames] at hf
  | cons k rest ih =>
    intro i f hf
    simp only [composeFrames] at hf
    split at hf
    · rename_i hfit
      simp only [List.mem_cons] at hf
      rcases hf with rfl | hf
      · have hfit' := hfit
        simp only [List.length_append] at hfit'
        simp only [List.length_append, List.length_map, get_jam,
          W.jamRaw_length]
        omega
      · exact ih _ _ hf
    · simp at hf

theorem composeFrames_of_fits (W : Wavegen) (sr ja : ℚ) (ps : ℕ) (d : List ℚ) :
    ∀ (ks : List (List ℚ)) (i : ℕ),
      (∀ k ∈ ks, (d ++ k).length < ps) →
      composeFrames W sr ja ps [d] i ks
        = (ks.map fun k => (d ++ k)
            ++ (get_jam W sr (ps - (d ++ k).length)).map fun x => ja * x,
           none) := by
  intro ks
  induction ks with
  | nil =>
    intro i _
    rfl
  | cons k rest ih =>
    intro i hfit
    simp only [composeFrames, List.length_singleton, Nat.mod_one,
      List.getD_cons_zero]
    rw [if_pos (hfit k (List.mem_cons_self k rest))]
    rw [ih (i + 1) fun x hx => hfit x (List.mem_cons_of_mem k hx)]
    simp

theorem composeFrames_error (W : Wavegen) (sr ja : ℚ) (ps : ℕ)
    (doors : List (List ℚ)) :
    ∀ (ks : List (List ℚ)) (i : ℕ) (e : GenError),
      (composeFrames W sr ja ps doors i ks).2 = some e → e = .frameTooLong := by
  intro ks
  induction ks with
  | nil =>
    intro i e he
    simp [composeFrames] at he
  | cons k rest ih =>
    intro i e he
    simp only [composeFrames] at he
    split at he
    · exact ih _ _ he
    · simp at he
      exact he.symm

theorem composeFrames_count (W : Wavegen) (sr ja : ℚ) (ps : ℕ)
    (doors : List (List ℚ)) :
    ∀ (ks : List (List ℚ)) (i : ℕ),
      (composeFrames W sr ja ps doors i ks).2 = none →
      (composeFrames W sr ja ps doors i ks).1.length = ks.length := by
  intro ks
  induction ks with
  | nil =>
    intro i _
    rfl
  | cons k rest ih =>
    intro i he
    simp only [composeFrames] at he ⊢
    split at he
    · rename_i hfit
      rw [if_pos hfit]
      simpa using ih _ he
    · simp at he

theorem composeFrames_pair (W : Wavegen) (sr ja ja' : ℚ) (ps : ℕ)
    (doors : List (List ℚ)) :
    ∀ (ks ks' : List (List ℚ)) (i : ℕ),
      ks.map List.length = ks'.map List.length →
      (composeFrames W sr ja ps doors i ks).1.length
          = (composeFrames W sr ja' ps doors i ks').1.length
        ∧ (composeFrames W sr ja ps doors i ks).2
          = (composeFrames W sr ja' ps doors i ks').2 := by
  intro ks
  induction ks with
  | nil =>
    intro ks' i h
    cases ks' with
    | nil => exact ⟨rfl, rfl⟩
    | cons k' rest' => simp at h
  | cons k rest ih =>
    intro ks' i h
    cases ks' with
    | nil => simp at h
    | cons k' rest' =>
      simp only [List.map_cons, List.cons.injEq] at h
      obtain ⟨hk, hrest⟩ := h
      simp only [composeFrames]
      have hlen : (doors.getD (i % doors.length) [] ++ k).length
          = (doors.getD (i % doors.length) [] ++ k').length := by
        simp [hk]
      obtain ⟨h1, h2⟩ := ih rest' (i + 1) hrest
      by_cases hfit : (doors.getD (i % doors.length) [] ++ k).length < ps
      · rw [if_pos hfit, if_pos (hlen ▸ hfit)]
        exact ⟨by simpa using h1, h2⟩
      · rw [if_neg hfit, if_neg (by rw [← hlen]; exact hfit)]
        exact ⟨rfl, rfl⟩

theorem composeFrames_cal (W : Wavegen) (sr : ℚ) (ps : ℕ) (d : List ℚ) :
    ∀ (ks : List (List ℚ)) (i : ℕ),
      (∀ k ∈ ks, k = List.replicate k.length (0 : ℚ)) →
      ∀ f ∈ (composeFrames W sr 0 ps [d] i ks).1,
        f = d ++ List.replicate (f.length - d.length) 0 := by
  intro ks
  induction ks with
  | nil =>
    intro i _ f hf
    simp [composeFrames] at hf
  | cons k rest ih =>
    intro i hz f hf
    simp only [composeFrames, List.length_singleton, Nat.mod_one,
      List.getD_cons_zero] at hf
    split at hf
    · rename_i hfit
      simp only [List.mem_cons] at hf
      rcases hf with rfl | hf
      · have hk := hz k (List.mem_cons_self k rest)
        rw [map_zero_mul]
        rw [List.append_assoc]
        conv_lhs => rw [hk]
        rw [← List.replicate_add]
        congr 1
        simp [get_jam, W.jamRaw_length]
      · exact ih (i + 1) (fun x hx => hz x (List.mem_cons_of_mem k hx)) f hf
    · simp at hf

theorem doorWave_length (W : Wavegen) {sr : ℚ} (h : 0 ≤ sr) :
    (doorWave W sr).length = 182 * chirpTargetLen sr := by
  unfold doorWave
  exact length_door_chirps W h

theorem map_zero_mul_phase (c : ℚ) (l : List ℚ) :
    (l.map fun x => (0 : ℚ) * c * x) = List.replicate l.length 0 := by
  induction l with
  | nil => rfl
  | cons x xs ih => simp [ih, List.replicate_succ]

theorem mkKeyholeSignal_cal (W : Wavegen) (sr : ℚ)
    (t : List ℕ × SupplierParams × ℚ × ℚ) :
    mkKeyholeSignal W sr true t
      = List.replicate (mkKeyholeSignal W sr true t).length 0 := by
  rw [List.eq_replicate_iff]
  refine ⟨rfl, ?_⟩
  intro b hb
  unfold mkKeyholeSignal mkEarlyJam mkKeyholeTail blank_after_payload at hb
  simp only [eq_self_iff_true, if_true, List.mem_append, List.mem_map,
    List.mem_replicate] at hb
  rcases hb with (⟨x, _, rfl⟩ | ⟨x, _, rfl⟩ | ⟨_, rfl⟩) <;> ring

theorem keyhole_fits (W : Wavegen) {sr : ℚ} (h : 0 ≤ sr)
    {a : List (List ℕ)} {s : List SupplierParams} {c : Bool} {ps : ℕ}
    (ht : ∀ t ∈ keyholeTuples a s, 182 * chirpTargetLen sr + khLen sr t < ps) :
    ∀ k ∈ keyhole_signals W sr a s c, (doorWave W sr ++ k).length < ps := by
  intro k hk
  rw [keyhole_signals_eq] at hk
  obtain ⟨t, ht', rfl⟩ := List.mem_map.mp hk
  rw [List.length_append, length_mkKeyholeSignal W h, doorWave_length W h]
  exact ht t ht'

theorem keyhole_signals_ne_nil (W : Wavegen) (sr : ℚ) {a : List (List ℕ)}
    {s : List SupplierParams} (c : Bool) (h : keyholeTuples a s ≠ []) :
    keyhole_signals W sr a s c ≠ [] := by
  rw [keyhole_signals_eq]
  simpa using h

theorem keyhole_signals_length_map_cal (W : Wavegen) (sr : ℚ)
    (a : List (List ℕ)) (s : List SupplierParams) :
    (keyhole_signals W sr a s true).map List.length
      = (keyhole_signals W sr a s false).map List.length := by
  rw [keyhole_signals_eq, keyhole_signals_eq, List.map_map, List.map_map]
  exact List.map_congr_left fun t _ => length_mkKeyholeSignal_cal_free W sr t

theorem generate_of_fits (W : Wavegen) {sr pe : ℚ} (a : List (List ℕ))
    (s : List SupplierParams) (c : Bool)
    (h1 : ¬ sr < 800000)
    (h2 : MIN_PERIOD_US ≤ pe)
    (h3 : (SYNC_BITS.length : ℚ) * BODY_BIT_TIME_US * sr / US_PER_SEC
        < pymod (1 / 2 * sr) ((pyIntToNat (pe * sr / US_PER_SEC) : ℚ)))
    (h4 : (SYNC_BITS.length : ℚ) * BODY_BIT_TIME_US * sr / US_PER_SEC
        < ((pyIntToNat (pe * sr / US_PER_SEC) : ℚ))
            - pymod (1 / 2 * sr) ((pyIntToNat (pe * sr / US_PER_SEC) : ℚ)))
    (h5 : ∀ k ∈ keyhole_signals W sr a s c,
        (doorWave W sr ++ k).length < pyIntToNat (pe * sr / US_PER_SEC))
    (h6 : keyhole_signals W sr a s c ≠ [])
    (h7 : (doorWave W sr).length < pyIntToNat (pe * sr / US_PER_SEC)) :
    generate W sr (some a) (some s) (some pe) c
      = ((keyhole_signals W sr a s c).map (fun k => (doorWave W sr ++ k)
            ++ (get_jam W sr (pyIntToNat (pe * sr / US_PER_SEC)
                - (doorWave W sr ++ k).length)).map
              fun x => (if c = true then (0 : ℚ) else 1) * x)
          ++ [doorWave W sr ++ (get_jam W sr (pyIntToNat (pe * sr / US_PER_SEC)
              - (doorWave W sr).length)).map
            fun x => (if c = true then (0 : ℚ) else 1) * x],
        none) := by
  simp only [generate, Option.getD_some]
  rw [if_neg h1, if_neg (not_not_intro h2), if_neg (not_not_intro h3),
    if_neg (not_not_intro h4)]
  unfold door_signals
  rw [composeFrames_of_fits W sr _ _ (doorWave W sr) _ 0 h5]
  have hlen : ¬ (keyhole_signals W sr a s c).length
      < ([doorWave W sr] : List (List ℚ)).length := by
    have hpos : 0 < (keyhole_signals W sr a s c).length := List.length_pos.mpr h6
    simp only [List.length_singleton]
    omega
  dsimp only
  rw [if_neg hlen]
  simp only [List.length_singleton, Nat.mod_one, List.getD_cons_zero]
  rw [if_neg (not_not_intro h7)]

theorem generate_mem_length (W : Wavegen) (sr : ℚ)
    (oa : Option (List (List ℕ))) (os : Option (List SupplierParams))
    (op : Option ℚ) (c : Bool) :
    ∀ f ∈ (generate W sr oa os op c).1,
      f.length = pyIntToNat (op.getD DEFAULT_PERIOD_US * sr / US_PER_SEC) := by
  intro f hf
  simp only [generate] at hf
  split at hf
  · simp at hf
  split at hf
  · simp at hf
  split at hf
  · simp at hf
  split at hf
  · simp at hf
  split at hf
  · exact composeFrames_mem_length W sr _ _ _ _ _ f hf
  · split at hf
    · exact composeFrames_mem_length W sr _ _ _ _ _ f hf
    · split at hf
      · exact composeFrames_mem_length W sr _ _ _ _ _ f hf
      · rename_i hguard
        rw [not_not] at hguard
        rw [List.mem_append] at hf
        rcases hf with hf | hf
        · exact composeFrames_mem_length W sr _ _ _ _ _ f hf
        · simp only [List.mem_singleton] at hf
          subst hf
          simp only [List.length_append, List.length_map, get_jam,
            W.jamRaw_length]
          omega

theorem generate_config_error (W : Wavegen) (sr : ℚ)
    (oa : Option (List (List ℕ))) (os : Option (List SupplierParams))
    (op : Option ℚ) (c : Bool)
    (h : sr < 800000 ∨ op.getD DEFAULT_PERIOD_US < MIN_PERIOD_US
      ∨ alignFails sr (op.getD DEFAULT_PERIOD_US)) :
    (generate W sr oa os op c).1 = []
      ∧ ∃ e, (generate W sr oa os op c).2 = some e
        ∧ e.isConfigError = true := by
  by_cases g1 : sr < 800000
  · simp only [generate]
    rw [if_pos g1]
    exact ⟨rfl, ⟨.sampleRateTooLow, rfl, rfl⟩⟩
  by_cases g2 : MIN_PERIOD_US ≤ op.getD DEFAULT_PERIOD_US
  · have ha : alignFails sr (op.getD DEFAULT_PERIOD_US) := by
      rcases h with h | h | h
      · exact absurd h g1
      · exact absurd g2 (not_le.mpr h)
      · exact h
    unfold alignFails at ha
    by_cases g3 : (SYNC_BITS.length : ℚ) * BODY_BIT_TIME_US * sr / US_PER_SEC
        < pymod (1 / 2 * sr)
          ((pyIntToNat (op.getD DEFAULT_PERIOD_US * sr / US_PER_SEC) : ℚ))
    · have g4 : ¬ (SYNC_BITS.length : ℚ) * BODY_BIT_TIME_US * sr / US_PER_SEC
          < ((pyIntToNat (op.getD DEFAULT_PERIOD_US * sr / US_PER_SEC) : ℚ))
              - pymod (1 / 2 * sr)
                ((pyIntToNat (op.getD DEFAULT_PERIOD_US * sr / US_PER_SEC) : ℚ)) := by
        rcases ha with ha | ha
        · exact absurd g3 ha
        · exact ha
      simp only [generate]
      rw [if_neg g1, if_neg (not_not_intro g2), if_neg (not_not_intro g3),
        if_pos g4]
      exact ⟨rfl, ⟨.alignmentHigh, rfl, rfl⟩⟩
    · simp only [generate]
      rw [if_neg g1, if_neg (not_not_intro g2), if_pos g3]
      exact ⟨rfl, ⟨.alignmentLow, rfl, rfl⟩⟩
  · simp only [generate]
    rw [if_neg g1, if_pos g2]
    exact ⟨rfl, ⟨.periodTooShort, rfl, rfl⟩⟩

theorem generate_no_config_error (W : Wavegen) (sr : ℚ)
    (oa : Option (List (List ℕ))) (os : Option (List SupplierParams))
    (op : Option ℚ) (c : Bool)
    (h1 : ¬ sr < 800000) (h2 : MIN_PERIOD_US ≤ op.getD DEFAULT_PERIOD_US)
    (h3 : ¬ alignFails sr (op.getD DEFAULT_PERIOD_US)) :
    ∀ e, (generate W sr oa os op c).2 = some e → e.isConfigError = false := by
  intro e he
  rw [alignFails, not_or, not_not, not_not] at h3
  obtain ⟨h3a, h3b⟩ := h3
  simp only [generate] at he
  rw [if_neg h1, if_neg (not_not_intro h2), if_neg (not_not_intro h3a),
    if_neg (not_not_intro h3b)] at he
  split at he
  · rename_i e' heq
    simp only [Prod.snd, Option.some_inj] at he
    subst he
    rw [composeFrames_error W sr _ _ _ _ _ _ heq]
    rfl
  · split at he
    · simp only [Prod.snd, Option.some_inj] at he
      subst he
      rfl
    · split at he
      · simp only [Prod.snd, Option.some_inj] at he
        subst he
        rfl
      · simp at he

theorem composeFrames_take_door (W : Wavegen) (sr ja : ℚ) (ps : ℕ)
    (d : List ℚ) :
    ∀ (ks : List (List ℚ)) (i : ℕ),
      ∀ f ∈ (composeFrames W sr ja ps [d] i ks).1, f.take d.length = d := by
  intro ks
  induction ks with
  | nil =>
    intro i f hf
    simp [composeFrames] at hf
  | cons k rest ih =>
    intro i f hf
    simp only [composeFrames, List.length_singleton, Nat.mod_one,
      List.getD_cons_zero] at hf
    split at hf
    · simp only [List.mem_cons] at hf
      rcases hf with rfl | hf
      · rw [List.append_assoc, List.take_left]
      · exact ih (i + 1) f hf
    · simp at hf

theorem generate_take_door (W : Wavegen) (sr : ℚ)
    (oa : Option (List (List ℕ))) (os : Option (List SupplierParams))
    (op : Option ℚ) (c : Bool) :
    ∀ f ∈ (generate W sr oa os op c).1,
      f.take (doorWave W sr).length = doorWave W sr := by
  intro f hf
  simp only [generate, door_signals] at hf
  split at hf
  · simp at hf
  split at hf
  · simp at hf
  split at hf
  · simp at hf
  split at hf
  · simp at hf
  split at hf
  · exact composeFrames_take_door W sr _ _ _ _ _ f hf
  · split at hf
    · exact composeFrames_take_door W sr _ _ _ _ _ f hf
    · split at hf
      · exact composeFrames_take_door W sr _ _ _ _ _ f hf
      · rw [List.mem_append] at hf
        rcases hf with hf | hf
        · exact composeFrames_take_door W sr _ _ _ _ _ f hf
        · simp only [List.mem_singleton] at hf
          subst hf
          simp only [List.length_singleton, Nat.mod_one, List.getD_cons_zero]
          rw [List.take_left]

theorem keyhole_signals_cal_zero (W : Wavegen) (sr : ℚ) (a : List (List ℕ))
    (s : List SupplierParams) :
    ∀ k ∈ keyhole_signals W sr a s true, k = List.replicate k.length (0 : ℚ) := by
  intro k hk
  rw [keyhole_signals_eq] at hk
  obtain ⟨t, _, rfl⟩ := List.mem_map.mp hk
  exact mkKeyholeSignal_cal W sr t

theorem generate_cal_shape (W : Wavegen) (sr : ℚ)
    (oa : Option (List (List ℕ))) (os : Option (List SupplierParams))
    (op : Option ℚ) :
    ∀ f ∈ (generate W sr oa os op true).1,
      f = doorWave W sr ++ List.replicate (f.length - (doorWave W sr).length) 0 := by
  intro f hf
  have hz := keyhole_signals_cal_zero W sr (oa.getD DEFAULT_ALLOWED_MESSAGES)
    (os.getD DEFAULT_SUPPLIER_PARAMETERS)
  simp only [generate, door_signals] at hf
  simp only [if_true] at hf
  split at hf
  · simp at hf
  split at hf
  · simp at hf
  split at hf
  · simp at hf
  split at hf
  · simp at hf
  split at hf
  · exact composeFrames_cal W sr _ _ _ _ hz f hf
  · split at hf
    · exact composeFrames_cal W sr _ _ _ _ hz f hf
    · split at hf
      · exact composeFrames_cal W sr _ _ _ _ hz f hf
      · rw [List.mem_append] at hf
        rcases hf with hf | hf
        · exact composeFrames_cal W sr _ _ _ _ hz f hf
        · simp only [List.mem_singleton] at hf
          subst hf
          simp only [List.length_singleton, Nat.mod_one, List.getD_cons_zero]
          rw [map_zero_mul]
          congr 1
          simp [get_jam, W.jamRaw_length]

theorem generate_cal_pair (W : Wavegen) (sr : ℚ)
    (oa : Option (List (List ℕ))) (os : Option (List SupplierParams))
    (op : Option ℚ) :
    (generate W sr oa os op true).1.length
        = (generate W sr oa os op false).1.length
      ∧ (generate W sr oa os op true).2 = (generate W sr oa os op false).2 := by
  have hmap := keyhole_signals_length_map_cal W sr
    (oa.getD DEFAULT_ALLOWED_MESSAGES) (os.getD DEFAULT_SUPPLIER_PARAMETERS)
  have hklen : (keyhole_signals W sr (oa.getD DEFAULT_ALLOWED_MESSAGES)
        (os.getD DEFAULT_SUPPLIER_PARAMETERS) true).length
      = (keyhole_signals W sr (oa.getD DEFAULT_ALLOWED_MESSAGES)
        (os.getD DEFAULT_SUPPLIER_PARAMETERS) false).length := by
    simpa using congrArg List.length hmap
  simp only [generate, door_signals, if_true]
  have hjb : (if (false : Bool) = true then (0 : ℚ) else 1) = 1 := rfl
  rw [hjb]
  by_cases g1 : sr < 800000
  · simp only [if_pos g1]
    exact ⟨trivial, trivial⟩
  simp only [if_neg g1]
  by_cases g2 : ¬ MIN_PERIOD_US ≤ op.getD DEFAULT_PERIOD_US
  · simp only [if_pos g2]
    exact ⟨trivial, trivial⟩
  simp only [if_neg g2]
  by_cases g3 : ¬ (SYNC_BITS.length : ℚ) * BODY_BIT_TIME_US * sr / US_PER_SEC
      < pymod (1 / 2 * sr)
        ((pyIntToNat (op.getD DEFAULT_PERIOD_US * sr / US_PER_SEC) : ℚ))
  · simp only [if_pos g3]
    exact ⟨trivial, trivial⟩
  simp only [if_neg g3]
  by_cases g4 : ¬ (SYNC_BITS.length : ℚ) * BODY_BIT_TIME_US * sr / US_PER_SEC
      < ((pyIntToNat (op.getD DEFAULT_PERIOD_US * sr / US_PER_SEC) : ℚ))
          - pymod (1 / 2 * sr)
            ((pyIntToNat (op.getD DEFAULT_PERIOD_US * sr / US_PER_SEC) : ℚ))
  · simp only [if_pos g4]
    exact ⟨trivial, trivial⟩
  simp only [if_neg g4]
  obtain ⟨hc1, hc2⟩ := composeFrames_pair W sr 0 1
    (pyIntToNat (op.getD DEFAULT_PERIOD_US * sr / US_PER_SEC)) [doorWave W sr]
    (keyhole_signals W sr (oa.getD DEFAULT_ALLOWED_MESSAGES)
      (os.getD DEFAULT_SUPPLIER_PARAMETERS) true)
    (keyhole_signals W sr (oa.getD DEFAULT_ALLOWED_MESSAGES)
      (os.getD DEFAULT_SUPPLIER_PARAMETERS) false) 0 hmap
  rw [hklen]
  cases hE : (composeFrames W sr 1
      (pyIntToNat (op.getD DEFAULT_PERIOD_US * sr / US_PER_SEC)) [doorWave W sr] 0
      (keyhole_signals W sr (oa.getD DEFAULT_ALLOWED_MESSAGES)
        (os.getD DEFAULT_SUPPLIER_PARAMETERS) false)).2 with
  | some e =>
    rw [hE] at hc2
    rw [hc2]
    exact ⟨hc1, rfl⟩
  | none =>
    rw [hE] at hc2
    rw [hc2]
    dsimp only
    by_cases g5 : (keyhole_signals W sr (oa.getD DEFAULT_ALLOWED_MESSAGES)
        (os.getD DEFAULT_SUPPLIER_PARAMETERS) false).length
        < ([doorWave W sr] : List (List ℚ)).length
    · simp only [if_pos g5]
      exact ⟨hc1, trivial⟩
    simp only [if_neg g5]
    by_cases g6 : ¬ (([doorWave W sr] : List (List ℚ)).getD
        ((keyhole_signals W sr (oa.getD DEFAULT_ALLOWED_MESSAGES)
          (os.getD DEFAULT_SUPPLIER_PARAMETERS) false).length
            % ([doorWave W sr] : List (List ℚ)).length) []).length
        < pyIntToNat (op.getD DEFAULT_PERIOD_US * sr / US_PER_SEC)
    · simp only [if_pos g6]
      exact ⟨hc1, trivial⟩
    simp only [if_neg g6]
    constructor
    · simp only [List.length_append, List.length_singleton, hc1]
    · trivial

theorem keyhole_supplier_count (m : List ℕ) (s : List SupplierParams) :
    (s.flatMap fun p => p.expected_delays.flatMap fun d =>
        p.expected_phases.map fun ph => (m, p, d, ph)).length
      = (s.map fun p =>
          p.expected_delays.length * p.expected_phases.length).sum := by
  induction s with
  | nil => simp
  | cons p ps ihp =>
    rw [List.flatMap_cons, List.length_append, ihp, List.map_cons,
      List.sum_cons]
    congr 1
    induction p.expected_delays with
    | nil => simp
    | cons d ds ihd =>
      rw [List.flatMap_cons, List.length_append, ihd]
      simp only [List.length_map, List.length_cons]
      ring

theorem keyholeTuples_count (a : List (List ℕ)) (s : List SupplierParams) :
    (keyholeTuples a s).length
      = a.length * (s.map fun p =>
          p.expected_delays.length * p.expected_phases.length).sum := by
  unfold keyholeTuples
  induction a with
  | nil => simp
  | cons m rest ih =>
    rw [List.flatMap_cons, List.length_append, ih, keyhole_supplier_count m s,
      List.length_cons]
    ring

theorem generate_count_of_none (W : Wavegen) (sr : ℚ)
    (oa : Option (List (List ℕ))) (os : Option (List SupplierParams))
    (op : Option ℚ) (c : Bool)
    (h : (generate W sr oa os op c).2 = none) :
    (generate W sr oa os op c).1.length
      = (keyholeTuples (oa.getD DEFAULT_ALLOWED_MESSAGES)
          (os.getD DEFAULT_SUPPLIER_PARAMETERS)).length + 1 := by
  simp only [generate, door_signals] at h ⊢
  by_cases g1 : sr < 800000
  · rw [if_pos g1] at h
    simp at h
  rw [if_neg g1] at h ⊢
  by_cases g2 : ¬ MIN_PERIOD_US ≤ op.getD DEFAULT_PERIOD_US
  · rw [if_pos g2] at h
    simp at h
  rw [if_neg g2] at h ⊢
  by_cases g3 : ¬ (SYNC_BITS.length : ℚ) * BODY_BIT_TIME_US * sr / US_PER_SEC
      < pymod (1 / 2 * sr)
        ((pyIntToNat (op.getD DEFAULT_PERIOD_US * sr / US_PER_SEC) : ℚ))
  · rw [if_pos g3] at h
    simp at h
  rw [if_neg g3] at h ⊢
  by_cases g4 : ¬ (SYNC_BITS.length : ℚ) * BODY_BIT_TIME_US * sr / US_PER_SEC
      < ((pyIntToNat (op.getD DEFAULT_PERIOD_US * sr / US_PER_SEC) : ℚ))
          - pymod (1 / 2 * sr)
            ((pyIntToNat (op.getD DEFAULT_PERIOD_US * sr / US_PER_SEC) : ℚ))
  · rw [if_pos g4] at h
    simp at h
  rw [if_neg g4] at h ⊢
  cases hE : (composeFrames W sr (if c = true then 0 else 1)
      (pyIntToNat (op.getD DEFAULT_PERIOD_US * sr / US_PER_SEC)) [doorWave W sr] 0
      (keyhole_signals W sr (oa.getD DEFAULT_ALLOWED_MESSAGES)
        (os.getD DEFAULT_SUPPLIER_PARAMETERS) c)).2 with
  | some e =>
    rw [hE] at h
    simp at h
  | none =>
    rw [hE] at h
    dsimp only at h ⊢
    by_cases g5 : (keyhole_signals W sr (oa.getD DEFAULT_ALLOWED_MESSAGES)
        (os.getD DEFAULT_SUPPLIER_PARAMETERS) c).length
        < ([doorWave W sr] : List (List ℚ)).length
    · rw [if_pos g5] at h
      simp at h
    rw [if_neg g5] at h ⊢
    by_cases g6 : ¬ (([doorWave W sr] : List (List ℚ)).getD
        ((keyhole_signals W sr (oa.getD DEFAULT_ALLOWED_MESSAGES)
          (os.getD DEFAULT_SUPPLIER_PARAMETERS) c).length
            % ([doorWave W sr] : List (List ℚ)).length) []).length
        < pyIntToNat (op.getD DEFAULT_PERIOD_US * sr / US_PER_SEC)
    · rw [if_pos g6] at h
      simp at h
    rw [if_neg g6] at h ⊢
    rw [List.length_append, List.length_singleton,
      composeFrames_count W sr _ _ _ _ _ hE, keyhole_signals_eq,
      List.length_map]

theorem pyIntToNat_eval (n : ℕ) {q : ℚ} (h1 : (n : ℚ) ≤ q) (h2 : q < n + 1) :
    pyIntToNat q = n := by
  have h0 : (0 : ℚ) ≤ q := le_trans (by exact_mod_cast Nat.zero_le n) h1
  unfold pyIntToNat
  rw [pyInt_of_nonneg h0]
  have hq : ⌊q⌋ = (n : ℤ) := by
    rw [Int.floor_eq_iff]
    constructor
    · exact_mod_cast h1
    · push_cast
      exact h2
  rw [hq]
  simp

theorem pymod_eval (k : ℤ) {a b : ℚ} (h1 : (k : ℚ) ≤ a / b)
    (h2 : a / b < k + 1) : pymod a b = a - b * k := by
  unfold pymod
  have hq : ⌊a / b⌋ = k := by
    rw [Int.floor_eq_iff]
    constructor
    · exact h1
    · exact h2
  rw [hq]

theorem tuples_default :
    keyholeTuples DEFAULT_ALLOWED_MESSAGES DEFAULT_SUPPLIER_PARAMETERS
      = [([0x0a, 0x00], wabcoParams, 45, -1),
         ([0x0a, 0x00], wabcoParams, 45, 1),
         ([0x0a, 0x00], wabcoParams, 417 / 10, -1),
         ([0x0a, 0x00], wabcoParams, 417 / 10, 1),
         ([0x0a, 0x00], bendixParams, 236 / 5, -1),
         ([0x0a, 0x00], bendixParams, 236 / 5, 1),
         ([0x0a, 0x00], bendixParams, 417 / 10, -1),
         ([0x0a, 0x00], bendixParams, 417 / 10, 1),
         ([0x0a, 0x00], bendixParams, 203 / 5, -1),
         ([0x0a, 0x00], bendixParams, 203 / 5, 1)] := rfl

theorem ev_bits_wabco :
    (get_payload_bits [0x0a, 0x00] none [2, 2] true).length = 29 := by decide

theorem ev_bits_bendix :
    (get_payload_bits [0x0a, 0x00] none [1, 0] true).length = 27 := by decide

theorem ev_ct_1e6 : chirpTargetLen 1000000 = 100 := by
  apply pyIntToNat_eval <;> norm_num

theorem ev_ct_fl2k : chirpTargetLen 7777777 = 777 := by
  apply pyIntToNat_eval <;> norm_num

theorem ev_ps_1e6 :
    pyIntToNat (DEFAULT_PERIOD_US * 1000000 / US_PER_SEC) = 32000 := by
  apply pyIntToNat_eval <;>
    norm_num [DEFAULT_PERIOD_US, MIN_PERIOD_US, US_PER_SEC]

theorem ev_ps_fl2k :
    pyIntToNat (DEFAULT_PERIOD_US * 7777777 / US_PER_SEC) = 248888 := by
  apply pyIntToNat_eval <;>
    norm_num [DEFAULT_PERIOD_US, MIN_PERIOD_US, US_PER_SEC]

theorem ev_blank_1e6 :
    pyIntToNat (TIME_AFTER_PAYLOAD_US * 1000000 / US_PER_SEC) = 1700 := by
  apply pyIntToNat_eval <;>
    norm_num [TIME_AFTER_PAYLOAD_US, BODY_BIT_TIME_US, US_PER_SEC]

theorem ev_blank_fl2k :
    pyIntToNat (TIME_AFTER_PAYLOAD_US * 7777777 / US_PER_SEC) = 13222 := by
  apply pyIntToNat_eval <;>
    norm_num [TIME_AFTER_PAYLOAD_US, BODY_BIT_TIME_US, US_PER_SEC]

theorem ev_start45_1e6 : keyholeStartSamples 45 1000000 = 4131 := by
  apply pyIntToNat_eval <;>
    norm_num [keyholeStartUs, UART_BIT_TIME_US, FROM_J2497_OVER_TO_UART_OVER_US,
      SYNC_SYMBOL_TIME_US, BODY_BIT_TIME_US, US_PER_SEC]

theorem ev_start417_1e6 : keyholeStartSamples (417 / 10) 1000000 = 3788 := by
  apply pyIntToNat_eval <;>
    norm_num [keyholeStartUs, UART_BIT_TIME_US, FROM_J2497_OVER_TO_UART_OVER_US,
      SYNC_SYMBOL_TIME_US, BODY_BIT_TIME_US, US_PER_SEC]

theorem ev_start472_1e6 : keyholeStartSamples (236 / 5) 1000000 = 4360 := by
  apply pyIntToNat_eval <;>
    norm_num [keyholeStartUs, UART_BIT_TIME_US, FROM_J2497_OVER_TO_UART_OVER_US,
      SYNC_SYMBOL_TIME_US, BODY_BIT_TIME_US, US_PER_SEC]

theorem ev_start406_1e6 : keyholeStartSamples (203 / 5) 1000000 = 3673 := by
  apply pyIntToNat_eval <;>
    norm_num [keyholeStartUs, UART_BIT_TIME_US, FROM_J2497_OVER_TO_UART_OVER_US,
      SYNC_SYMBOL_TIME_US, BODY_BIT_TIME_US, US_PER_SEC]

theorem ev_start45_fl2k : keyholeStartSamples 45 7777777 = 32136 := by
  apply pyIntToNat_eval <;>
    norm_num [keyholeStartUs, UART_BIT_TIME_US, FROM_J2497_OVER_TO_UART_OVER_US,
      SYNC_SYMBOL_TIME_US, BODY_BIT_TIME_US, US_PER_SEC]

theorem ev_start417_fl2k : keyholeStartSamples (417 / 10) 7777777 = 29462 := by
  apply pyIntToNat_eval <;>
    norm_num [keyholeStartUs, UART_BIT_TIME_US, FROM_J2497_OVER_TO_UART_OVER_US,
      SYNC_SYMBOL_TIME_US, BODY_BIT_TIME_US, US_PER_SEC]

theorem ev_start472_fl2k : keyholeStartSamples (236 / 5) 7777777 = 33918 := by
  apply pyIntToNat_eval <;>
    norm_num [keyholeStartUs, UART_BIT_TIME_US, FROM_J2497_OVER_TO_UART_OVER_US,
      SYNC_SYMBOL_TIME_US, BODY_BIT_TIME_US, US_PER_SEC]

theorem ev_start406_fl2k : keyholeStartSamples (203 / 5) 7777777 = 28571 := by
  apply pyIntToNat_eval <;>
    norm_num [keyholeStartUs, UART_BIT_TIME_US, FROM_J2497_OVER_TO_UART_OVER_US,
      SYNC_SYMBOL_TIME_US, BODY_BIT_TIME_US, US_PER_SEC]

theorem tuple_fits_1e6 :
    ∀ t ∈ keyholeTuples DEFAULT_ALLOWED_MESSAGES DEFAULT_SUPPLIER_PARAMETERS,
      182 * chirpTargetLen 1000000 + khLen 1000000 t
        < pyIntToNat (DEFAULT_PERIOD_US * 1000000 / US_PER_SEC) := by
  rw [tuples_default, ev_ps_1e6, ev_ct_1e6]
  intro t ht
  fin_cases ht <;>
    simp [khLen, wabcoParams, bendixParams, ev_start45_1e6, ev_start417_1e6,
      ev_start472_1e6, ev_start406_1e6, ev_bits_wabco, ev_bits_bendix,
      ev_blank_1e6, ev_ct_1e6]

theorem tuple_fits_fl2k :
    ∀ t ∈ keyholeTuples DEFAULT_ALLOWED_MESSAGES DEFAULT_SUPPLIER_PARAMETERS,
      182 * chirpTargetLen 7777777 + khLen 7777777 t
        < pyIntToNat (DEFAULT_PERIOD_US * 7777777 / US_PER_SEC) := by
  rw [tuples_default, ev_ps_fl2k, ev_ct_fl2k]
  intro t ht
  fin_cases ht <;>
    simp [khLen, wabcoParams, bendixParams, ev_start45_fl2k, ev_start417_fl2k,
      ev_start472_fl2k, ev_start406_fl2k, ev_bits_wabco, ev_bits_bendix,
      ev_blank_fl2k, ev_ct_fl2k]

theorem align_lo_1e6 :
    (SYNC_BITS.length : ℚ) * BODY_BIT_TIME_US * 1000000 / US_PER_SEC
      < pymod (1 / 2 * 1000000)
        ((pyIntToNat (DEFAULT_PERIOD_US * 1000000 / US_PER_SEC) : ℚ)) := by
  rw [ev_ps_1e6]
  have hm : pymod (1 / 2 * 1000000) (((32000 : ℕ) : ℚ)) = 20000 := by
    rw [pymod_eval 15 (by norm_num) (by norm_num)]
    norm_num
  rw [hm]
  norm_num [SYNC_BITS, BODY_BIT_TIME_US, US_PER_SEC]

theorem align_hi_1e6 :
    (SYNC_BITS.length : ℚ) * BODY_BIT_TIME_US * 1000000 / US_PER_SEC
      < ((pyIntToNat (DEFAULT_PERIOD_US * 1000000 / US_PER_SEC) : ℚ))
          - pymod (1 / 2 * 1000000)
            ((pyIntToNat (DEFAULT_PERIOD_US * 1000000 / US_PER_SEC) : ℚ)) := by
  rw [ev_ps_1e6]
  have hm : pymod (1 / 2 * 1000000) (((32000 : ℕ) : ℚ)) = 20000 := by
    rw [pymod_eval 15 (by norm_num) (by norm_num)]
    norm_num
  rw [hm]
  norm_num [SYNC_BITS, BODY_BIT_TIME_US, US_PER_SEC]

theorem align_lo_fl2k :
    (SYNC_BITS.length : ℚ) * BODY_BIT_TIME_US * 7777777 / US_PER_SEC
      < pymod (1 / 2 * 7777777)
        ((pyIntToNat (DEFAULT_PERIOD_US * 7777777 / US_PER_SEC) : ℚ)) := by
  rw [ev_ps_fl2k]
  have hm : pymod (1 / 2 * 7777777) (((248888 : ℕ) : ℚ)) = 311137 / 2 := by
    rw [pymod_eval 15 (by norm_num) (by norm_num)]
    norm_num
  rw [hm]
  norm_num [SYNC_BITS, BODY_BIT_TIME_US, US_PER_SEC]

theorem align_hi_fl2k :
    (SYNC_BITS.length : ℚ) * BODY_BIT_TIME_US * 7777777 / US_PER_SEC
      < ((pyIntToNat (DEFAULT_PERIOD_US * 7777777 / US_PER_SEC) : ℚ))
          - pymod (1 / 2 * 7777777)
            ((pyIntToNat (DEFAULT_PERIOD_US * 7777777 / US_PER_SEC) : ℚ)) := by
  rw [ev_ps_fl2k]
  have hm : pymod (1 / 2 * 7777777) (((248888 : ℕ) : ℚ)) = 311137 / 2 := by
    rw [pymod_eval 15 (by norm_num) (by norm_num)]
    norm_num
  rw [hm]
  norm_num [SYNC_BITS, BODY_BIT_TIME_US, US_PER_SEC]

theorem generate_default_eq (W : Wavegen) (sr : ℚ) (c : Bool) :
    generate W sr none none none c
      = generate W sr (some DEFAULT_ALLOWED_MESSAGES)
          (some DEFAULT_SUPPLIER_PARAMETERS) (some DEFAULT_PERIOD_US) c := rfl

theorem generate_1e6_run (W : Wavegen) (c : Bool) :
    generate W 1000000 none none none c
      = ((keyhole_signals W 1000000 DEFAULT_ALLOWED_MESSAGES
            DEFAULT_SUPPLIER_PARAMETERS c).map (fun k =>
              (doorWave W 1000000 ++ k)
              ++ (get_jam W 1000000 (pyIntToNat (DEFAULT_PERIOD_US * 1000000
                    / US_PER_SEC) - (doorWave W 1000000 ++ k).length)).map
                fun x => (if c = true then (0 : ℚ) else 1) * x)
          ++ [doorWave W 1000000 ++ (get_jam W 1000000
                (pyIntToNat (DEFAULT_PERIOD_US * 1000000 / US_PER_SEC)
                  - (doorWave W 1000000).length)).map
              fun x => (if c = true then (0 : ℚ) else 1) * x],
         none) := by
  rw [generate_default_eq]
  exact generate_of_fits W DEFAULT_ALLOWED_MESSAGES DEFAULT_SUPPLIER_PARAMETERS c
    (by norm_num) le_rfl align_lo_1e6 align_hi_1e6
    (keyhole_fits W (by norm_num) tuple_fits_1e6)
    (keyhole_signals_ne_nil W 1000000 c (by rw [tuples_default]; simp))
    (by
      rw [doorWave_length W (by norm_num), ev_ct_1e6, ev_ps_1e6]
      norm_num)

theorem generate_fl2k_run (W : Wavegen) (c : Bool) :
    generate W 7777777 none none none c
      = ((keyhole_signals W 7777777 DEFAULT_ALLOWED_MESSAGES
            DEFAULT_SUPPLIER_PARAMETERS c).map (fun k =>
              (doorWave W 7777777 ++ k)
              ++ (get_jam W 7777777 (pyIntToNat (DEFAULT_PERIOD_US * 7777777
                    / US_PER_SEC) - (doorWave W 7777777 ++ k).length)).map
                fun x => (if c = true then (0 : ℚ) else 1) * x)
          ++ [doorWave W 7777777 ++ (get_jam W 7777777
                (pyIntToNat (DEFAULT_PERIOD_US * 7777777 / US_PER_SEC)
                  - (doorWave W 7777777).length)).map
              fun x => (if c = true then (0 : ℚ) else 1) * x],
         none) := by
  rw [generate_default_eq]
  exact generate_of_fits W DEFAULT_ALLOWED_MESSAGES DEFAULT_SUPPLIER_PARAMETERS c
    (by norm_num) le_rfl align_lo_fl2k align_hi_fl2k
    (keyhole_fits W (by norm_num) tuple_fits_fl2k)
    (keyhole_signals_ne_nil W 7777777 c (by rw [tuples_default]; simp))
    (by
      rw [doorWave_length W (by norm_num), ev_ct_fl2k, ev_ps_fl2k]
      norm_num)

theorem generate_1e6_facts (W : Wavegen) (c : Bool) :
    (generate W 1000000 none none none c).2 = none
      ∧ (generate W 1000000 none none none c).1.length = 11
      ∧ (generate W 1000000 none none none c).1.getLast?
          = some (doorWave W 1000000 ++ (get_jam W 1000000 13800).map
              fun x => (if c = true then (0 : ℚ) else 1) * x) := by
  rw [generate_1e6_run]
  refine ⟨rfl, ?_, ?_⟩
  · simp [keyhole_signals_eq, tuples_default]
  · rw [List.getLast?_concat]
    have hd : pyIntToNat (DEFAULT_PERIOD_US * 1000000 / US_PER_SEC)
        - (doorWave W 1000000).length = 13800 := by
      rw [doorWave_length W (by norm_num), ev_ct_1e6, ev_ps_1e6]
    rw [hd]

theorem generate_fl2k_facts (W : Wavegen) (c : Bool) :
    (generate W 7777777 none none none c).2 = none
      ∧ (generate W 7777777 none none none c).1.length = 11 := by
  rw [generate_fl2k_run]
  refine ⟨rfl, ?_⟩
  simp [keyhole_signals_eq, tuples_default]

theorem map_one_mul (l : List ℚ) : (l.map fun x => (1 : ℚ) * x) = l := by
  simp

/-- C1: the spec claims `build_payload_bits` appends `extra(i)` extra stop
bits after byte `i`, with `extra(i) = extra_stop_bits[i]` for `i` in range
and the last element afterwards.  The code never increments its `char_count`
index, so every byte gets `extra_stop_bits[0]` extra stop bits: encoding the
LAMP ON payload `0a 00` with the Bendix vector `[1, 0]` yields one extra `1`
stop bit after each of the two bytes (27 bits in all), where the spec
requires none after the second byte (26 bits). -/
theorem claim_C1_extra_stop_bits_bug :
    get_payload_bits [0x0a, 0x00] none [1, 0] true
      = [true, true, true, true, true,
         false, false, true, false, true, false, false, false, false, true,
         true,
         false, false, false, false, false, false, false, false, false, true,
         true] := by
  decide

/-- C2 (amended): every frame yielded by `generate` has length exactly
`int(period_us × sample_rate / 1e6)` samples — Python `int` truncation, not
rounding — so all frames of one run have equal length. -/
theorem claim_C2_frame_length (W : Wavegen) (sr : ℚ)
    (oa : Option (List (List ℕ))) (os : Option (List SupplierParams))
    (op : Option ℚ) (c : Bool) :
    ((generate W sr oa os op c).1).map List.length
      = List.replicate (generate W sr oa os op c).1.length
          (pyIntToNat (op.getD DEFAULT_PERIOD_US * sr / US_PER_SEC)) := by
  rw [List.eq_replicate_iff]
  refine ⟨by simp, ?_⟩
  intro n hn
  rw [List.mem_map] at hn
  obtain ⟨f, hf, rfl⟩ := hn
  exact generate_mem_length W sr oa os op c f hf

/-- C2 counterexample: with the default configuration at sample rate
7 777 777 the run yields 11 frames of exactly 248 888 samples, whereas the
claimed `round(32000 × 7777777 / 1e6)` is 248 889. -/
theorem claim_C2_counterexample :
    ((generate zeroWavegen 7777777 none none none false).1).map List.length
        = List.replicate 11 248888
      ∧ (specRound (32000 * 7777777 / 1000000)).toNat ≠ 248888 := by
  constructor
  · obtain ⟨-, hlen⟩ := generate_fl2k_facts zeroWavegen false
    rw [List.eq_replicate_iff]
    refine ⟨by simp [hlen], ?_⟩
    intro n hn
    rw [List.mem_map] at hn
    obtain ⟨f, hf, rfl⟩ := hn
    rw [generate_mem_length zeroWavegen 7777777 none none none false f hf]
    exact ev_ps_fl2k
  · have hr : specRound (32000 * 7777777 / 1000000) = 248889 := by
      unfold specRound
      rw [Int.floor_eq_iff]
      constructor <;> norm_num
    rw [hr]
    decide

/-- C3 counterexample: the byte sequence the claim names (MID `0x89` plus a
16-byte body with eleven `0xAA` bytes) is not the door message built by
`_door_signals`, and its checksum is `0x0A`, not the claimed `0xB4`. -/
theorem claim_C3_counterexample :
    get_checksum ([0x89, 0xfe, 0x07, 0x57] ++ List.replicate 11 0xaa
        ++ [0xa7, 0x1c]) = 0x0a
      ∧ door_message ≠ [0x89, 0xfe, 0x07, 0x57] ++ List.replicate 11 0xaa
        ++ [0xa7, 0x1c] := by
  constructor
  · rw [get_checksum_eq]
    decide
  · decide

set_option maxRecDepth 8192 in
/-- C3 (amended): the built-in door message is MID `0x89` followed by the
15-byte body `FE 07 57` + ten `AA` bytes + `A7 1C`; the checksum of those
bytes is `0xB4`, and the door is emitted with the override byte `0xCC`, so
its bit stream differs from the correct-CRC encoding. -/
theorem claim_C3_door_checksum :
    door_message = [0x89, 0xfe, 0x07, 0x57] ++ List.replicate 10 0xaa
        ++ [0xa7, 0x1c]
      ∧ get_checksum door_message = 0xb4
      ∧ door_bits = get_payload_bits door_message (some 0xcc) [0] false
      ∧ door_bits ≠ get_payload_bits door_message none [0] false := by
  have hcs : get_checksum door_message = 0xb4 := by
    rw [get_checksum_eq]
    decide
  refine ⟨by decide, hcs, rfl, ?_⟩
  have hnone : get_payload_bits door_message none [0] false
      = get_payload_bits door_message (some 0xb4) [0] false := by
    unfold get_payload_bits
    simp [get_checksum_bits, hcs]
  rw [hnone]
  decide

/-- C4: for every byte sequence, the checksum function returns
`(256 − sum) mod 256` (sums above 255 included), so payload sum plus
checksum is divisible by 256. -/
theorem claim_C4_checksum_complement (p : List ℕ) :
    get_checksum p = ((256 - (p.sum : ℤ)) % 256).toNat
      ∧ (p.sum + get_checksum p) % 256 = 0 := by
  refine ⟨get_checksum_eq p, ?_⟩
  rw [get_checksum_eq p]
  omega

/-- C5: whenever `generate` runs to completion (no configuration or
assertion failure), the number of frames yielded is
`1 + |allowed| × Σ over suppliers of |delays| × |phases|`; with the default
configuration at 1 MHz this is 11, and the final frame is the door followed
by a full-rest-of-period jam. -/
theorem claim_C5_frame_count :
    (∀ (W : Wavegen) (sr : ℚ) (oa : Option (List (List ℕ)))
        (os : Option (List SupplierParams)) (op : Option ℚ) (c : Bool),
      (generate W sr oa os op c).2 = none →
      (generate W sr oa os op c).1.length
        = 1 + (oa.getD DEFAULT_ALLOWED_MESSAGES).length
            * ((os.getD DEFAULT_SUPPLIER_PARAMETERS).map fun p =>
                p.expected_delays.length * p.expected_phases.length).sum)
    ∧ ∀ W : Wavegen,
      (generate W 1000000 none none none false).1.length = 11
        ∧ (generate W 1000000 none none none false).1.getLast?
          = some (doorWave W 1000000 ++ get_jam W 1000000 13800) := by
  constructor
  · intro W sr oa os op c h
    rw [generate_count_of_none W sr oa os op c h, keyholeTuples_count]
    ring
  · intro W
    obtain ⟨-, h2, h3⟩ := generate_1e6_facts W false
    refine ⟨h2, ?_⟩
    rw [h3]
    rw [show (if (false : Bool) = true then (0 : ℚ) else 1) = 1 from rfl,
      map_one_mul]

/-- C5 witness: the default configuration at 1 MHz runs to completion and the
general count formula evaluates to 11 there. -/
theorem claim_C5_witness :
    (generate zeroWavegen 1000000 none none none false).2 = none
      ∧ (generate zeroWavegen 1000000 none none none false).1.length
        = 1 + ((none : Option (List (List ℕ))).getD
              DEFAULT_ALLOWED_MESSAGES).length
            * (((none : Option (List SupplierParams)).getD
                DEFAULT_SUPPLIER_PARAMETERS).map fun p =>
                p.expected_delays.length * p.expected_phases.length).sum :=
  ⟨(generate_1e6_facts zeroWavegen false).1,
    claim_C5_frame_count.1 zeroWavegen 1000000 none none none false
      (generate_1e6_facts zeroWavegen false).1⟩

/-- C6: a sample rate below 800 kHz, a period below 32 000 µs, or a period
aligning with the 0.5 s LAMP cycle within one sync-symbol width makes
`generate` stop with a configuration error before yielding any frame; when
all three conditions hold, no configuration error is raised.  Concretely,
`period_us = 25000` at 1 MHz fails the period floor. -/
theorem claim_C6_config_errors :
    (∀ (W : Wavegen) (sr : ℚ) (oa : Option (List (List ℕ)))
        (os : Option (List SupplierParams)) (op : Option ℚ) (c : Bool),
      (sr < 800000 ∨ op.getD DEFAULT_PERIOD_US < MIN_PERIOD_US
          ∨ alignFails sr (op.getD DEFAULT_PERIOD_US) →
        (generate W sr oa os op c).1 = []
          ∧ ∃ e, (generate W sr oa os op c).2 = some e
            ∧ e.isConfigError = true)
      ∧ (¬ sr < 800000 → MIN_PERIOD_US ≤ op.getD DEFAULT_PERIOD_US →
          ¬ alignFails sr (op.getD DEFAULT_PERIOD_US) →
          ∀ e, (generate W sr oa os op c).2 = some e →
            e.isConfigError = false))
    ∧ ∀ W : Wavegen, generate W 1000000 none none (some 25000) false
        = ([], some GenError.periodTooShort) := by
  refine ⟨fun W sr oa os op c =>
    ⟨generate_config_error W sr oa os op c,
     generate_no_config_error W sr oa os op c⟩, ?_⟩
  intro W
  simp only [generate, Option.getD_some]
  rw [if_neg (by norm_num), if_pos (by norm_num [MIN_PERIOD_US])]

/-- C6 witness: the configuration `period_us = 25000` at 1 MHz satisfies the
period-floor failure condition and indeed produces no frame and a
configuration error; the default configuration at 1 MHz raises no
configuration error. -/
theorem claim_C6_witness :
    ((generate zeroWavegen 1000000 none none (some 25000) false).1 = []
        ∧ ∃ e, (generate zeroWavegen 1000000 none none (some 25000)
              false).2 = some e ∧ e.isConfigError = true)
      ∧ ∀ e, (generate zeroWavegen 1000000 none none none false).2 = some e →
          e.isConfigError = false := by
  constructor
  · exact (claim_C6_config_errors.1 zeroWavegen 1000000 none none
      (some 25000) false).1
      (Or.inr (Or.inl (by norm_num [MIN_PERIOD_US, DEFAULT_PERIOD_US])))
  · exact (claim_C6_config_errors.1 zeroWavegen 1000000 none none
      none false).2 (by norm_num) le_rfl
      (fun hcon => hcon.elim (fun h => h align_lo_1e6) (fun h => h align_hi_1e6))

/-- C7: every keyhole signal is its early jam followed by the keyhole body,
and the early jam has exactly
`int((delay × 104.17 + 48.3 − 104.17 − 500) × sample_rate / 1e6)` samples;
for delay 45.0 the start offset is 4131.78 µs, which at 1 MHz is 4131
samples (satisfying the claim's 4131-or-4132 allowance). -/
theorem claim_C7_keyhole_timing :
    (∀ (W : Wavegen) (sr : ℚ) (c : Bool) (m : List ℕ) (p : SupplierParams)
        (d ph : ℚ),
      mkKeyholeSignal W sr c (m, p, d, ph)
          = mkEarlyJam W sr (if c then (0 : ℚ) else 1) d
            ++ mkKeyholeTail W sr (if c then (0 : ℚ) else 1) ph m
              p.extra_stop_bits
        ∧ (mkEarlyJam W sr (if c then (0 : ℚ) else 1) d).length
          = pyIntToNat ((d * UART_BIT_TIME_US
              + FROM_J2497_OVER_TO_UART_OVER_US - UART_BIT_TIME_US
              - SYNC_SYMBOL_TIME_US) * sr / US_PER_SEC))
    ∧ keyholeStartUs 45 = 413178 / 100
    ∧ (keyholeStartSamples 45 1000000 = 4131
        ∨ keyholeStartSamples 45 1000000 = 4132) := by
  refine ⟨?_, ?_, Or.inl ev_start45_1e6⟩
  · intro W sr c m p d ph
    refine ⟨rfl, ?_⟩
    simp [mkEarlyJam, get_jam, W.jamRaw_length, keyholeStartSamples,
      keyholeStartUs]
  · norm_num [keyholeStartUs, UART_BIT_TIME_US,
      FROM_J2497_OVER_TO_UART_OVER_US, SYNC_SYMBOL_TIME_US, BODY_BIT_TIME_US]

/-- C8: the keyhole enumeration is the cross product in exactly the order
allowed messages, then suppliers, then each supplier's delays, then its
phases; at the default configuration this is the explicit ten-tuple list
WABCO (45, 41.7) × (−1, 1) followed by Bendix (47.2, 41.7, 40.6) × (−1, 1). -/
theorem claim_C8_enumeration_order :
    (∀ (W : Wavegen) (sr : ℚ) (a : List (List ℕ)) (s : List SupplierParams)
        (c : Bool),
      keyhole_signals W sr a s c
        = (keyholeTuples a s).map (mkKeyholeSignal W sr c))
    ∧ keyholeTuples DEFAULT_ALLOWED_MESSAGES DEFAULT_SUPPLIER_PARAMETERS
      = [([0x0a, 0x00], wabcoParams, 45, -1),
         ([0x0a, 0x00], wabcoParams, 45, 1),
         ([0x0a, 0x00], wabcoParams, 417 / 10, -1),
         ([0x0a, 0x00], wabcoParams, 417 / 10, 1),
         ([0x0a, 0x00], bendixParams, 236 / 5, -1),
         ([0x0a, 0x00], bendixParams, 236 / 5, 1),
         ([0x0a, 0x00], bendixParams, 417 / 10, -1),
         ([0x0a, 0x00], bendixParams, 417 / 10, 1),
         ([0x0a, 0x00], bendixParams, 203 / 5, -1),
         ([0x0a, 0x00], bendixParams, 203 / 5, 1)] :=
  ⟨fun W sr a s c => keyhole_signals_eq W sr a s c, tuples_default⟩

/-- C9: in calibration mode every yielded frame is the door samples followed
only by zeros for the rest of the period; the door prefix of every frame in
normal mode is the same door waveform, and both modes yield the same number
of frames. -/
theorem claim_C9_calibration_mode (W : Wavegen) (sr : ℚ)
    (oa : Option (List (List ℕ))) (os : Option (List SupplierParams))
    (op : Option ℚ) :
    (generate W sr oa os op true).1
        = (generate W sr oa os op true).1.map (fun f =>
            doorWave W sr
              ++ List.replicate (f.length - (doorWave W sr).length) 0)
      ∧ (generate W sr oa os op false).1.map
          (List.take (doorWave W sr).length)
        = List.replicate (generate W sr oa os op false).1.length
            (doorWave W sr)
      ∧ (generate W sr oa os op true).1.length
        = (generate W sr oa os op false).1.length := by
  refine ⟨?_, ?_, (generate_cal_pair W sr oa os op).1⟩
  · exact (((List.map_congr_left fun f hf =>
      (generate_cal_shape W sr oa os op f hf).symm).trans
        (List.map_id _))).symm
  · rw [List.eq_replicate_iff]
    refine ⟨by simp, ?_⟩
    intro b hb
    rw [List.mem_map] at hb
    obtain ⟨f, hf, rfl⟩ := hb
    exact generate_take_door W sr oa os op false f hf

/-- C10: the door signal has no preamble section: it is exactly the
payload-rule chirp modulation of the 182 framed bits of the door message, so
its sample count is `182 × int(100e-6 × sample_rate)`. -/
theorem claim_C10_door_no_preamble (W : Wavegen) {sr : ℚ} (h : 0 ≤ sr) :
    door_signals W sr
        = [get_payload_chirps door_bits sr (generate_single_chirp W sr)]
      ∧ door_bits.length = 182
      ∧ (doorWave W sr).length = 182 * pyIntToNat (100 / 1000000 * sr) :=
  ⟨rfl, door_bits_length, by rw [doorWave_length W h]; rfl⟩

/-- C10 witness: the door facts instantiated at 1 MHz. -/
theorem claim_C10_witness :
    (0 : ℚ) ≤ 1000000
      ∧ (door_signals zeroWavegen 1000000
          = [get_payload_chirps door_bits 1000000
              (generate_single_chirp zeroWavegen 1000000)]
        ∧ door_bits.length = 182
        ∧ (doorWave zeroWavegen 1000000).length
          = 182 * pyIntToNat (100 / 1000000 * 1000000)) :=
  ⟨by norm_num, claim_C10_door_no_preamble zeroWavegen (by norm_num)⟩
